import Mathlib

/-!
Verification development for the dsLang compiler front end
(src/compiler: type.h, type.cpp, parser.h, parser.cpp, sema.h, codegen.cpp).

Each section shallowly embeds the part of the source that a claim is about:
pure functions become Lean functions, the stateful visitors become explicit
state passing, machine integers become Nat or Int. Source locations are cited
next to each definition.
-/

namespace DsLang

/-! ## Type system (src/compiler/type.h, type.cpp)

Scalar types of the type system. The signedness flag of the integer types does
not influence size or alignment (type.h:236-417), so it is omitted here.
Struct nesting inside field types is not needed by any claim and is omitted;
a field may have any of the kinds below, including void and function, whose
alignment is reported as 0 (type.h:180, type.h:683). -/
inductive Ty where
  | void
  | bool
  | char
  | short
  | int
  | long
  | float
  | double
  | pointer (pointee : Ty)
  | array (elem : Ty) (count : Nat)
  | func
  deriving DecidableEq, Repr

/-- GetSize of each type in bytes (type.h: VoidType 0, BoolType 1, CharType 1,
ShortType 2, IntType 4, LongType 8, FloatType 4, DoubleType 8, PointerType 8,
ArrayType element size times count, FunctionType 0). -/
def Ty.size : Ty → Nat
  | .void => 0
  | .bool => 1
  | .char => 1
  | .short => 2
  | .int => 4
  | .long => 8
  | .float => 4
  | .double => 8
  | .pointer _ => 8
  | .array e n => e.size * n
  | .func => 0

/-- GetAlignment of each type in bytes (type.h: VoidType 0, BoolType 1,
CharType 1, ShortType 2, IntType 4, LongType 8, FloatType 4, DoubleType 8,
PointerType 8, ArrayType element alignment, FunctionType 0). -/
def Ty.align : Ty → Nat
  | .void => 0
  | .bool => 1
  | .char => 1
  | .short => 2
  | .int => 4
  | .long => 8
  | .float => 4
  | .double => 8
  | .pointer _ => 8
  | .array e _ => e.align
  | .func => 0

/-- StructType state (type.h:508-583): name, fields in declaration order,
per-field offsets, size, alignment, completeness flag. -/
structure StructType where
  name : String
  fields : List (String × Ty)
  field_offsets : List Nat
  size : Nat
  alignment : Nat
  complete : Bool
  deriving DecidableEq, Repr

/-- StructType constructor (type.h:513-514): size 0, alignment 0, incomplete. -/
def StructType.new (nm : String) : StructType :=
  ⟨nm, [], [], 0, 0, false⟩

/-- StructType::AddField (type.cpp:205-212): appending a field is a no-op on a
completed struct. -/
def StructType.AddField (s : StructType) (nm : String) (t : Ty) : StructType :=
  if s.complete then s else { s with fields := s.fields ++ [(nm, t)] }

/-- A struct built by the constructor followed by a sequence of AddField calls,
i.e. any StructType on which SetComplete has not been called. -/
def StructType.ofFields (nm : String) (fs : List (String × Ty)) : StructType :=
  fs.foldl (fun s f => s.AddField f.1 f.2) (StructType.new nm)

/-- The field loop of StructType::SetComplete (type.cpp:278-293). Arguments:
remaining fields, current_offset, alignment accumulator, offsets accumulated so
far. Returns the offsets, the final alignment, and the final current_offset.
The C++ rounding is current_offset = (current_offset + field_align - 1) /
field_align * field_align, reproduced verbatim. -/
def setCompleteLoop : List (String × Ty) → Nat → Nat → List Nat → List Nat × Nat × Nat
  | [], off, algn, offs => (offs, algn, off)
  | f :: rest, off, algn, offs =>
      let a := f.2.align
      let o := (off + a - 1) / a * a
      setCompleteLoop rest (o + f.2.size) (max algn a) (offs ++ [o])

/-- StructType::SetComplete (type.cpp:270-297): no-op when already complete;
otherwise runs the field loop and rounds the final size up to a multiple of
the alignment with size = (current_offset + alignment - 1) / alignment *
alignment. -/
def StructType.SetComplete (s : StructType) : StructType :=
  if s.complete then s
  else
    let r := setCompleteLoop s.fields 0 0 []
    { s with
      complete := true
      field_offsets := r.1
      alignment := r.2.1
      size := (r.2.2 + r.2.1 - 1) / r.2.1 * r.2.1 }

/-- Parallel scan of StructType::GetFieldOffset (type.cpp:223-229): walk the
fields and the offsets vector together, return the offset of the first field
with the given name, 0 when the field is not found. -/
def fieldOffsetScan : List (String × Ty) → List Nat → String → Nat
  | f :: fs, o :: os, nm => if f.1 = nm then o else fieldOffsetScan fs os nm
  | _, _, _ => 0

/-- StructType::GetFieldOffset (type.cpp:217-230): 0 when the struct is not
complete, otherwise the offset recorded for the named field (0 if absent). -/
def StructType.GetFieldOffset (s : StructType) (nm : String) : Nat :=
  if s.complete then fieldOffsetScan s.fields s.field_offsets nm else 0

/-- StructType::GetSize (type.cpp:248-254): 0 when not complete. -/
def StructType.GetSize (s : StructType) : Nat :=
  if s.complete then s.size else 0

/-- StructType::GetAlignment (type.cpp:259-265): 0 when not complete. -/
def StructType.GetAlignment (s : StructType) : Nat :=
  if s.complete then s.alignment else 0

/-! Division-checked variant of SetComplete for the division-by-zero claim.
Every `/` of the source is replaced by divOpt, which refuses a zero divisor;
everything else is identical to setCompleteLoop and SetComplete. -/

/-- Division that signals a zero divisor instead of performing it. -/
def divOpt (n d : Nat) : Option Nat :=
  if d = 0 then none else some (n / d)

/-- setCompleteLoop with every division guarded against a zero divisor. -/
def setCompleteLoopChecked :
    List (String × Ty) → Nat → Nat → List Nat → Option (List Nat × Nat × Nat)
  | [], off, algn, offs => some (offs, algn, off)
  | f :: rest, off, algn, offs =>
      let a := f.2.align
      match divOpt (off + a - 1) a with
      | none => none
      | some q => setCompleteLoopChecked rest (q * a + f.2.size) (max algn a) (offs ++ [q * a])

/-- StructType::SetComplete with every division guarded against a zero
divisor: returns none exactly when the C++ would divide by zero. -/
def setCompleteChecked (fs : List (String × Ty)) : Option (List Nat × Nat × Nat) :=
  match setCompleteLoopChecked fs 0 0 [] with
  | none => none
  | some (offs, algn, off) =>
      match divOpt (off + algn - 1) algn with
      | none => none
      | some q => some (offs, algn, q * algn)

/-! ### Specification-side layout predicate (for the layout claim)

LayoutOk off fields offs fin holds when offs assigns each field, in order, the
least offset that is a multiple of the field alignment and at least the
running offset, and fin is the end of the last field. -/
inductive LayoutOk : Nat → List (String × Ty) → List Nat → Nat → Prop where
  | nil (off : Nat) : LayoutOk off [] [] off
  | cons {off : Nat} {f : String × Ty} {rest : List (String × Ty)}
      {o fin : Nat} {os : List Nat} :
      f.2.align ∣ o → off ≤ o → o < off + f.2.align →
      LayoutOk (o + f.2.size) rest os fin →
      LayoutOk off (f :: rest) (o :: os) fin

/-! ### Round-up arithmetic facts -/

theorem roundUp_dvd (off a : Nat) : a ∣ (off + a - 1) / a * a :=
  Dvd.intro_left _ rfl

theorem roundUp_ge (off a : Nat) (ha : 0 < a) : off ≤ (off + a - 1) / a * a := by
  obtain ⟨t, ht⟩ : ∃ t, (off + a - 1) / a * a = t := ⟨_, rfl⟩
  have h1 : a * ((off + a - 1) / a) + (off + a - 1) % a = off + a - 1 :=
    Nat.div_add_mod _ _
  have h2 : (off + a - 1) % a < a := Nat.mod_lt _ ha
  rw [Nat.mul_comm] at h1
  rw [ht] at h1
  omega

theorem roundUp_lt (off a : Nat) (ha : 0 < a) : (off + a - 1) / a * a < off + a := by
  obtain ⟨t, ht⟩ : ∃ t, (off + a - 1) / a * a = t := ⟨_, rfl⟩
  have h1 : a * ((off + a - 1) / a) + (off + a - 1) % a = off + a - 1 :=
    Nat.div_add_mod _ _
  rw [Nat.mul_comm] at h1
  rw [ht] at h1
  omega

/-! ### Facts about the fold of max used for the struct alignment -/

theorem foldlMax_init_le (l : List (String × Ty)) (i : Nat) :
    i ≤ l.foldl (fun m f => max m f.2.align) i := by
  induction l generalizing i with
  | nil => exact Nat.le_refl i
  | cons a l ih =>
      exact Nat.le_trans (Nat.le_max_left i a.2.align) (ih (max i a.2.align))

theorem foldlMax_mem_le (l : List (String × Ty)) (i : Nat) (f : String × Ty)
    (hf : f ∈ l) : f.2.align ≤ l.foldl (fun m f => max m f.2.align) i := by
  induction l generalizing i with
  | nil => cases hf
  | cons a l ih =>
      rcases List.mem_cons.mp hf with h | h
      · subst h
        exact Nat.le_trans (Nat.le_max_right i f.2.align)
          (foldlMax_init_le l (max i f.2.align))
      · exact ih (max i a.2.align) h

theorem foldlMax_attained (l : List (String × Ty)) (i : Nat) :
    l.foldl (fun m f => max m f.2.align) i = i ∨
      ∃ f ∈ l, l.foldl (fun m f => max m f.2.align) i = f.2.align := by
  induction l generalizing i with
  | nil => exact Or.inl rfl
  | cons a l ih =>
      rcases ih (max i a.2.align) with h | ⟨f, hf, hEq⟩
      · rcases Nat.le_total a.2.align i with hle | hle
        · left
          simpa [Nat.max_eq_left hle] using h
        · right
          exact ⟨a, List.mem_cons_self a l, by simpa [Nat.max_eq_right hle] using h⟩
      · exact Or.inr ⟨f, List.mem_cons_of_mem a hf, hEq⟩

/-- The alignment accumulator of the field loop is the fold of max over the
field alignments. -/
theorem setCompleteLoop_align (fs : List (String × Ty)) (off algn : Nat)
    (offs : List Nat) :
    (setCompleteLoop fs off algn offs).2.1 =
      fs.foldl (fun m f => max m f.2.align) algn := by
  induction fs generalizing off algn offs with
  | nil => rfl
  | cons f rest ih => simpa [setCompleteLoop] using ih _ _ _

/-- The field loop computes a layout in the sense of LayoutOk, provided every
field alignment is positive. -/
theorem setCompleteLoop_layout (fs : List (String × Ty)) (off algn : Nat)
    (offs : List Nat) (hpos : ∀ f ∈ fs, 0 < f.2.align) :
    ∃ L fin, (setCompleteLoop fs off algn offs).1 = offs ++ L ∧
      (setCompleteLoop fs off algn offs).2.2 = fin ∧
      LayoutOk off fs L fin := by
  induction fs generalizing off algn offs with
  | nil => exact ⟨[], off, by simp [setCompleteLoop], rfl, LayoutOk.nil off⟩
  | cons f rest ih =>
      have ha : 0 < f.2.align := hpos f (List.mem_cons_self f rest)
      have hpos' : ∀ g ∈ rest, 0 < g.2.align := fun g hg =>
        hpos g (List.mem_cons_of_mem f hg)
      set a := f.2.align with hadef
      set o := (off + a - 1) / a * a with hodef
      obtain ⟨L, fin, hL, hfin, hlay⟩ :=
        ih (o + f.2.size) (max algn a) (offs ++ [o]) hpos'
      refine ⟨o :: L, fin, ?_, ?_, ?_⟩
      · simpa [setCompleteLoop, List.append_assoc] using hL
      · simpa [setCompleteLoop] using hfin
      · exact LayoutOk.cons (roundUp_dvd off a) (roundUp_ge off a ha)
          (roundUp_lt off a ha) hlay

/-- A struct built from a fresh StructType by AddField keeps its fields in
order and remains incomplete. -/
theorem ofFields_spec (nm : String) (fs : List (String × Ty)) :
    (StructType.ofFields nm fs).fields = fs ∧
      (StructType.ofFields nm fs).complete = false ∧
      (StructType.ofFields nm fs).name = nm := by
  have key : ∀ (l : List (String × Ty)) (s : StructType), s.complete = false →
      (l.foldl (fun s f => s.AddField f.1 f.2) s).fields = s.fields ++ l ∧
        (l.foldl (fun s f => s.AddField f.1 f.2) s).complete = false ∧
        (l.foldl (fun s f => s.AddField f.1 f.2) s).name = s.name := by
    intro l
    induction l with
    | nil => intro s hs; exact ⟨by simp, hs, rfl⟩
    | cons f rest ih =>
        intro s hs
        have hstep : (s.AddField f.1 f.2) =
            { s with fields := s.fields ++ [(f.1, f.2)] } := by
          simp [StructType.AddField, hs]
        obtain ⟨h1, h2, h3⟩ := ih (s.AddField f.1 f.2) (by simp [hstep, hs])
        refine ⟨?_, h2, ?_⟩
        · simp only [List.foldl_cons] at *
          rw [h1, hstep]
          simp
        · simp only [List.foldl_cons] at *
          rw [h3, hstep]
  simpa [StructType.ofFields, StructType.new] using
    key fs (StructType.new nm) rfl

/-- The full layout specification asserted by the struct layout claim, for the
finalized version of a struct with the given fields. -/
def structLayoutSpec (nm : String) (fs : List (String × Ty)) : Prop :=
  ∃ fin : Nat,
    LayoutOk 0 fs ((StructType.ofFields nm fs).SetComplete).field_offsets fin ∧
    (∀ f ∈ fs, f.2.align ≤ ((StructType.ofFields nm fs).SetComplete).alignment) ∧
    (∃ f ∈ fs, ((StructType.ofFields nm fs).SetComplete).alignment = f.2.align) ∧
    ((StructType.ofFields nm fs).SetComplete).alignment ∣
      ((StructType.ofFields nm fs).SetComplete).size ∧
    fin ≤ ((StructType.ofFields nm fs).SetComplete).size ∧
    ((StructType.ofFields nm fs).SetComplete).size <
      fin + ((StructType.ofFields nm fs).SetComplete).alignment

theorem foldlMax_pos (fs : List (String × Ty)) (hne : fs ≠ [])
    (hpos : ∀ f ∈ fs, 0 < f.2.align) :
    0 < fs.foldl (fun m f => max m f.2.align) 0 := by
  cases fs with
  | nil => exact absurd rfl hne
  | cons f rest =>
      exact Nat.lt_of_lt_of_le (hpos f (List.mem_cons_self f rest))
        (foldlMax_mem_le (f :: rest) 0 f (List.mem_cons_self f rest))

/-- Claim C4: StructType finalization computes each field offset by rounding
the running offset up to the field alignment (the least such multiple), sets
the struct alignment to the maximum field alignment, and rounds the final size
up to a multiple of that alignment. Stated for every field list with positive
field alignments; the concrete instance of the claim, fields char/int/char
giving offsets 0, 4, 8, alignment 4 and size 12, is the witness below. -/
theorem C4_struct_layout (nm : String) (fs : List (String × Ty))
    (hpos : ∀ f ∈ fs, 0 < f.2.align) (hne : fs ≠ []) :
    DsLang.structLayoutSpec nm fs := by
  obtain ⟨hfields, hcomp, -⟩ := ofFields_spec nm fs
  set s := StructType.ofFields nm fs with hs
  set r := setCompleteLoop fs 0 0 [] with hr
  have hsc : s.SetComplete =
      { s with
        complete := true
        field_offsets := r.1
        alignment := r.2.1
        size := (r.2.2 + r.2.1 - 1) / r.2.1 * r.2.1 } := by
    rw [StructType.SetComplete, hcomp, hfields]
    simp
  obtain ⟨L, fin, hL, hfin, hlay⟩ := setCompleteLoop_layout fs 0 0 [] hpos
  have hL' : r.1 = L := by simpa using hL
  subst hL'
  subst hfin
  have halgn : r.2.1 = fs.foldl (fun m f => max m f.2.align) 0 :=
    setCompleteLoop_align fs 0 0 []
  have hposA : 0 < r.2.1 := halgn ▸ foldlMax_pos fs hne hpos
  have hatt : ∃ f ∈ fs, r.2.1 = f.2.align := by
    rcases foldlMax_attained fs 0 with h | h
    · rw [← halgn] at h
      exact absurd (h ▸ hposA) (Nat.lt_irrefl 0)
    · rw [← halgn] at h
      exact h
  refine ⟨r.2.2, ?_, ?_, ?_, ?_, ?_, ?_⟩
  · rw [hsc]
    exact hlay
  · intro f hf
    rw [hsc]
    simpa [halgn] using foldlMax_mem_le fs 0 f hf
  · rw [hsc]
    exact hatt
  · rw [hsc]
    exact roundUp_dvd r.2.2 r.2.1
  · rw [hsc]
    exact roundUp_ge r.2.2 r.2.1 hposA
  · rw [hsc]
    exact roundUp_lt r.2.2 r.2.1 hposA

/-- Witness for C4 at the concrete struct of the claim: fields char a, int b,
char c. The hypotheses hold, the layout specification holds by the theorem,
and evaluating the embedded SetComplete yields offsets 0, 4, 8, alignment 4
and size 12 exactly as the claim states. -/
theorem C4_struct_layout_witness :
    ((∀ f ∈ ([("a", Ty.char), ("b", Ty.int), ("c", Ty.char)] : List (String × Ty)),
        0 < f.2.align) ∧
      ([("a", Ty.char), ("b", Ty.int), ("c", Ty.char)] : List (String × Ty)) ≠ []) ∧
    DsLang.structLayoutSpec "S" [("a", Ty.char), ("b", Ty.int), ("c", Ty.char)] ∧
    ((StructType.ofFields "S" [("a", Ty.char), ("b", Ty.int), ("c", Ty.char)]).SetComplete.field_offsets
        = [0, 4, 8] ∧
      (StructType.ofFields "S" [("a", Ty.char), ("b", Ty.int), ("c", Ty.char)]).SetComplete.alignment = 4 ∧
      (StructType.ofFields "S" [("a", Ty.char), ("b", Ty.int), ("c", Ty.char)]).SetComplete.GetSize = 12 ∧
      (StructType.ofFields "S" [("a", Ty.char), ("b", Ty.int), ("c", Ty.char)]).SetComplete.GetFieldOffset "a" = 0 ∧
      (StructType.ofFields "S" [("a", Ty.char), ("b", Ty.int), ("c", Ty.char)]).SetComplete.GetFieldOffset "b" = 4 ∧
      (StructType.ofFields "S" [("a", Ty.char), ("b", Ty.int), ("c", Ty.char)]).SetComplete.GetFieldOffset "c" = 8) :=
  ⟨⟨by decide, by decide⟩,
    C4_struct_layout "S" [("a", Ty.char), ("b", Ty.int), ("c", Ty.char)]
      (by decide) (by decide),
    by decide, by decide, by decide, by decide, by decide, by decide⟩

/-- Claim C8: on every StructType on which SetComplete has not been called,
that is, any struct reachable by the constructor followed by AddField calls,
GetSize returns 0 and GetFieldOffset returns 0 for every field name; both are
total functions, no error is signalled. -/
theorem C8_incomplete_struct_queries (nm : String) (fs : List (String × Ty)) :
    (StructType.ofFields nm fs).GetSize = 0 ∧
      (StructType.ofFields nm fs).GetAlignment = 0 ∧
      ∀ fieldName : String, (StructType.ofFields nm fs).GetFieldOffset fieldName = 0 := by
  obtain ⟨-, hcomp, -⟩ := ofFields_spec nm fs
  refine ⟨?_, ?_, fun fieldName => ?_⟩
  · rw [StructType.GetSize, hcomp]
    simp
  · rw [StructType.GetAlignment, hcomp]
    simp
  · rw [StructType.GetFieldOffset, hcomp]
    simp

/-- The checked loop fails exactly when some field has alignment zero. -/
theorem setCompleteLoopChecked_none (fs : List (String × Ty)) :
    ∀ (off algn : Nat) (offs : List Nat),
      setCompleteLoopChecked fs off algn offs = none ↔ ∃ f ∈ fs, f.2.align = 0 := by
  induction fs with
  | nil => intro off algn offs; simp [setCompleteLoopChecked]
  | cons f rest ih =>
      intro off algn offs
      by_cases ha : f.2.align = 0
      · simp [setCompleteLoopChecked, divOpt, ha]
      · simp only [setCompleteLoopChecked, divOpt, ha, if_false]
        rw [ih]
        constructor
        · rintro ⟨g, hg, hga⟩
          exact ⟨g, List.mem_cons_of_mem f hg, hga⟩
        · rintro ⟨g, hg, hga⟩
          rcases List.mem_cons.mp hg with h | h
          · exact absurd (h ▸ hga) ha
          · exact ⟨g, h, hga⟩

/-- With positive field alignments the checked loop computes exactly what the
source loop computes. -/
theorem setCompleteLoopChecked_eq (fs : List (String × Ty)) :
    ∀ (off algn : Nat) (offs : List Nat), (∀ f ∈ fs, 0 < f.2.align) →
      setCompleteLoopChecked fs off algn offs = some (setCompleteLoop fs off algn offs) := by
  induction fs with
  | nil => intro off algn offs _; rfl
  | cons f rest ih =>
      intro off algn offs hpos
      have ha : f.2.align ≠ 0 :=
        Nat.pos_iff_ne_zero.mp (hpos f (List.mem_cons_self f rest))
      have hpos' : ∀ g ∈ rest, 0 < g.2.align := fun g hg =>
        hpos g (List.mem_cons_of_mem f hg)
      simp only [setCompleteLoopChecked, setCompleteLoop, divOpt, ha, if_false]
      exact ih _ _ _ hpos'

/-- Claim C10: the SetComplete computation is free of division by zero exactly
when the struct has at least one field and every field type reports a positive
alignment. The checked variant guards every division of the source against a
zero divisor; its success is equivalent to that precondition. -/
theorem C10_setComplete_div_by_zero (fs : List (String × Ty)) :
    (setCompleteChecked fs).isSome = true ↔
      (fs ≠ [] ∧ ∀ f ∈ fs, 0 < f.2.align) := by
  constructor
  · intro h
    have hnone : setCompleteLoopChecked fs 0 0 [] ≠ none := by
      intro hn
      rw [setCompleteChecked, hn] at h
      simp at h
    have hpos : ∀ f ∈ fs, 0 < f.2.align := by
      intro f hf
      rcases Nat.eq_zero_or_pos f.2.align with h0 | hp
      · exact absurd ((setCompleteLoopChecked_none fs 0 0 []).mpr ⟨f, hf, h0⟩) hnone
      · exact hp
    refine ⟨?_, hpos⟩
    intro hfe
    subst hfe
    simp [setCompleteChecked, setCompleteLoopChecked, divOpt] at h
  · rintro ⟨hne, hpos⟩
    rw [setCompleteChecked, setCompleteLoopChecked_eq fs 0 0 [] hpos]
    have halgn : (setCompleteLoop fs 0 0 []).2.1 ≠ 0 :=
      Nat.pos_iff_ne_zero.mp
        (setCompleteLoop_align fs 0 0 [] ▸ foldlMax_pos fs hne hpos)
    simp [divOpt, halgn]

/-- Witness for C10 in the satisfiable direction: a one-field struct with a
positive-alignment field passes the division checks. -/
theorem C10_setComplete_div_by_zero_witness :
    (setCompleteChecked [("x", Ty.int)]).isSome = true ∧
      (([("x", Ty.int)] : List (String × Ty)) ≠ [] ∧
        ∀ f ∈ ([("x", Ty.int)] : List (String × Ty)), 0 < f.2.align) :=
  ⟨(C10_setComplete_div_by_zero [("x", Ty.int)]).mpr ⟨by decide, by decide⟩,
    by decide, by decide⟩

/-! ## Parser (src/compiler/parser.h, parser.cpp)

Only the parts the claims are about are embedded: the struct and enum tag
reference branches of Parser::ParseType, and the enumerator loop of
Parser::ParseEnumDeclaration. -/

/-- The type-reference state of one Parser instance. struct_types and
enum_types are the registries declared at parser.h:450-452, commented there as
a type cache to avoid creating duplicate types. next_alloc is an allocation
counter: every call of std::make_shared yields a new object, and two Type
objects are identical exactly when they carry the same allocation number. -/
structure ParserTypeState where
  struct_types : List (String × Nat)
  enum_types : List (String × Nat)
  next_alloc : Nat
  deriving DecidableEq, Repr

/-- The struct branch of Parser::ParseType (parser.cpp:222-239): after the tag
name is read, the parser executes std::make_shared of StructType with the
name, that is, it allocates a fresh Type object on every reference. Neither
struct_types nor enum_types is read or written anywhere in parser.cpp; the
registries stay exactly as they were. The result is the allocation number of
the new object. -/
def parseStructTypeRef (_tag : String) (s : ParserTypeState) : Nat × ParserTypeState :=
  (s.next_alloc, { s with next_alloc := s.next_alloc + 1 })

/-- The enum branch of Parser::ParseType (parser.cpp:240-257): identical in
structure to the struct branch, also a fresh std::make_shared allocation with
no registry access. -/
def parseEnumTypeRef (_tag : String) (s : ParserTypeState) : Nat × ParserTypeState :=
  (s.next_alloc, { s with next_alloc := s.next_alloc + 1 })

/-- One enumerator as it arrives at the loop of ParseEnumDeclaration: a name
and either no initializer, an integer-literal initializer, or an initializer
token that is not an integer literal. -/
inductive EnumInit where
  | noInit
  | intLit (v : Int)
  | nonLit
  deriving DecidableEq, Repr

/-- The enumerator loop of Parser::ParseEnumDeclaration (parser.cpp:632-661).
next_value starts at 0 at the call site; each member first takes
value = next_value++ (so the counter advances by one per member); an explicit
integer-literal initializer overwrites value with the literal and sets
next_value = value + 1; any other initializer token triggers ReportError,
which sets the parser error flag, and the member keeps the counter value.
Returns the accumulated (name, value) pairs and the error flag. -/
def parseEnumerators : List (String × EnumInit) → Int → Bool → List (String × Int) × Bool
  | [], _, err => ([], err)
  | (nm, ini) :: rest, next, err =>
      match ini with
      | .noInit =>
          let r := parseEnumerators rest (next + 1) err
          ((nm, next) :: r.1, r.2)
      | .intLit v =>
          let r := parseEnumerators rest (v + 1) err
          ((nm, v) :: r.1, r.2)
      | .nonLit =>
          let r := parseEnumerators rest (next + 1) true
          ((nm, next) :: r.1, r.2)

/-- Specification-side sequence: consecutive values starting at a given
counter, following the words of the claim for members without initializers. -/
def specSeqFrom : Int → List String → List (String × Int)
  | _, [] => []
  | next, nm :: rest => (nm, next) :: specSeqFrom (next + 1) rest

/-- Claim C3, evaluated at the failing input: two references to the same tag,
struct Foo, parsed by the same Parser instance yield two distinct Type
objects (allocation numbers 0 and 1), and the name-keyed registries remain
empty, so the claimed memoization does not happen. This exhibits the claim as
false on the code; the registries exist (parser.h:450-452) but ParseType
never consults them. -/
theorem C3_struct_tag_not_memoized :
    (parseStructTypeRef "Foo" ⟨[], [], 0⟩).1 ≠
      (parseStructTypeRef "Foo" (parseStructTypeRef "Foo" ⟨[], [], 0⟩).2).1 ∧
    (parseStructTypeRef "Foo" (parseStructTypeRef "Foo" ⟨[], [], 0⟩).2).2.struct_types = [] ∧
    (parseEnumTypeRef "E" ⟨[], [], 0⟩).1 ≠
      (parseEnumTypeRef "E" (parseEnumTypeRef "E" ⟨[], [], 0⟩).2).1 := by
  refine ⟨by decide, rfl, by decide⟩

/-- Claim C5: enum members take counter values starting at 0 advancing by one,
an integer-literal initializer sets the value and resets the counter to
value + 1, and a non-literal initializer is a reported error. In particular
enum E with members A, B, C = 10, D yields A=0, B=1, C=10, D=11 with no error,
a run of members without initializers is numbered consecutively from the
counter, and a non-literal initializer raises the error flag. -/
theorem C5_enum_value_sequencing :
    parseEnumerators
        [("A", .noInit), ("B", .noInit), ("C", .intLit 10), ("D", .noInit)] 0 false
      = ([("A", 0), ("B", 1), ("C", 10), ("D", 11)], false) ∧
    (∀ (names : List String) (next : Int),
      parseEnumerators (names.map (fun nm => (nm, EnumInit.noInit))) next false
        = (specSeqFrom next names, false)) ∧
    (∀ (nm : String) (v : Int) (rest : List (String × EnumInit)) (next : Int) (err : Bool),
      parseEnumerators ((nm, EnumInit.intLit v) :: rest) next err
        = ((nm, v) :: (parseEnumerators rest (v + 1) err).1,
            (parseEnumerators rest (v + 1) err).2)) ∧
    (parseEnumerators [("A", .nonLit), ("B", .noInit)] 0 false).2 = true := by
  refine ⟨by decide, ?_, fun nm v rest next err => rfl, ?_⟩
  · intro names
    induction names with
    | nil => intro next; rfl
    | cons nm rest ih =>
        intro next
        simp [parseEnumerators, specSeqFrom, ih (next + 1)]
  · have h : ∀ (l : List (String × EnumInit)) (next : Int),
        (parseEnumerators l next true).2 = true := by
      intro l
      induction l with
      | nil => intro next; rfl
      | cons p rest ih =>
          intro next
          rcases p with ⟨nm, ini⟩
          cases ini <;> simp [parseEnumerators, ih]
    exact h [("B", .noInit)] 1

/-! ## Semantic analyzer (src/compiler/sema.h)

sema.h carries its own type universe: BasicType over a kind enumeration that
includes distinct unsigned kinds (sema.h:197-211), plus pointer and array
types. The analyzer is a fail-fast visitor: the first violation throws a
SemanticError carrying message, line and column (sema.h:28-47, 750-752); this
is embedded as an Except computation. The analyzed expression and statement
universes below cover the node kinds the claims exercise; each case is a
direct transcription of the corresponding Visit method. -/

/-- Type kinds as used by sema.h (BasicType kinds and the composite kinds). -/
inductive SKind where
  | VOID | BOOL | CHAR | SHORT | INT | LONG | FLOAT | DOUBLE
  | UNSIGNED_CHAR | UNSIGNED_SHORT | UNSIGNED_INT | UNSIGNED_LONG
  | POINTER | ARRAY | STRUCT | ENUM | FUNCTION
  deriving DecidableEq, Repr

/-- Types as sema.h manipulates them: a basic type of some kind, a pointer
type with a pointee, or an array type. Well-formed values use the basic
constructor only with non-composite kinds. -/
inductive STy where
  | basic (k : SKind)
  | pointer (pointee : STy)
  | array (elem : STy) (count : Nat)
  deriving DecidableEq, Repr

/-- GetKind of a type. -/
def STy.kind : STy → SKind
  | .basic k => k
  | .pointer _ => .POINTER
  | .array _ _ => .ARRAY

/-- SemanticAnalyzer::IsIntegerType (sema.h:799-813). -/
def IsIntegerType (t : STy) : Bool :=
  match t.kind with
  | .CHAR | .INT | .LONG | .SHORT
  | .UNSIGNED_CHAR | .UNSIGNED_INT | .UNSIGNED_LONG | .UNSIGNED_SHORT => true
  | _ => false

/-- SemanticAnalyzer::IsNumericType (sema.h:815-817): the source returns
IsIntegerType of the argument, with a comment that floating-point types are
still to be added. FLOAT and DOUBLE therefore do not count as numeric. -/
def IsNumericType (t : STy) : Bool :=
  IsIntegerType t

/-- SemanticAnalyzer::IsScalarType (sema.h:819-835). -/
def IsScalarType (t : STy) : Bool :=
  match t.kind with
  | .BOOL | .CHAR | .INT | .LONG | .SHORT
  | .UNSIGNED_CHAR | .UNSIGNED_INT | .UNSIGNED_LONG | .UNSIGNED_SHORT
  | .POINTER => true
  | _ => false

/-- The pointee of a pointer type, none otherwise. -/
def STy.pointee : STy → Option STy
  | .pointer p => some p
  | _ => none

/-- SemanticAnalyzer::AreTypesCompatible (sema.h:837-867): same kind, or both
integer kinds, or pointer compatibility through a void pointee on either side
(the two pointer branches are reachable only after the same-kind test, so they
never fire, exactly as in the source). -/
def AreTypesCompatible (t1 t2 : STy) : Bool :=
  if t1.kind = t2.kind then true
  else if IsIntegerType t1 && IsIntegerType t2 then true
  else if t1.kind = .POINTER && t2.kind = .POINTER &&
      (match t2.pointee with | some p => p.kind = .VOID | none => false) then true
  else if t1.kind = .POINTER && t2.kind = .POINTER &&
      (match t1.pointee with | some p => p.kind = .VOID | none => false) then true
  else false

/-- SemanticAnalyzer::GetCommonType (sema.h:869-891): equal kinds keep the
left type; mixed integers promote in the order long, int, short, char;
otherwise the left type is returned. -/
def GetCommonType (t1 t2 : STy) : STy :=
  if t1.kind = t2.kind then t1
  else if IsIntegerType t1 && IsIntegerType t2 then
    if t1.kind = .LONG || t2.kind = .LONG then .basic .LONG
    else if t1.kind = .INT || t2.kind = .INT then .basic .INT
    else if t1.kind = .SHORT || t2.kind = .SHORT then .basic .SHORT
    else .basic .CHAR
  else t1

/-- Unary operators as dispatched by SemanticAnalyzer::VisitUnaryExpr. -/
inductive SUnOp where
  | NEGATE | NOT | BIT_NOT | PRE_INC | PRE_DEC | POST_INC | POST_DEC
  | DEREF | ADDR_OF
  deriving DecidableEq, Repr

/-- Binary operators as dispatched by SemanticAnalyzer::VisitBinaryExpr. -/
inductive SBinOp where
  | ADD | SUB | MUL | DIV | MOD
  | BIT_AND | BIT_OR | BIT_XOR | SHIFT_LEFT | SHIFT_RIGHT
  | EQUAL | NOT_EQUAL | LESS | GREATER | LESS_EQUAL | GREATER_EQUAL
  | LOGICAL_AND | LOGICAL_OR
  deriving DecidableEq, Repr

/-- Expressions of the analyzed universe. Every node carries the line and
column that the analyzer reads through GetLine and GetColumn when it reports
an error. Literal kinds follow VisitLiteralExpr (sema.h:351-376); the integer
literal carries its value, which the analyzer never inspects. -/
inductive SExpr where
  | litInt (v : Int) (line col : Nat)
  | litChar (line col : Nat)
  | litStr (s : String) (line col : Nat)
  | litBool (b : Bool) (line col : Nat)
  | litNull (line col : Nat)
  | varE (vname : String) (line col : Nat)
  | binary (op : SBinOp) (l r : SExpr) (line col : Nat)
  | unary (op : SUnOp) (e : SExpr) (line col : Nat)
  | assign (target value : SExpr) (line col : Nat)
  | subscript (arr idx : SExpr) (line col : Nat)
  | castE (target : STy) (e : SExpr) (line col : Nat)
  deriving DecidableEq, Repr

/-- A SemanticError (sema.h:28-47): message, line, column. -/
structure SemErr where
  msg : String
  line : Nat
  col : Nat
  deriving DecidableEq, Repr

/-- Symbol kinds (sema.h:54-61). -/
inductive SymKind where
  | VARIABLE | FUNCTION | PARAMETER | STRUCT | ENUM | ENUM_VALUE
  deriving DecidableEq, Repr

/-- A symbol: kind and type (sema.h:52-79; positions are irrelevant to the
claims and omitted). -/
structure Symbol where
  kind : SymKind
  ty : STy
  deriving DecidableEq, Repr

/-- One scope is a name-to-symbol map; Define overwrites silently, which a
front-cons plus first-match lookup models exactly. -/
def SScope := List (String × Symbol)

/-- The scope chain, innermost first (Scope::parent_ chains, sema.h:84-131;
SymbolTable keeps the stack, sema.h:136-191). -/
def SScopes := List (List (String × Symbol))

/-- Scope::Lookup in a single scope. -/
def scopeLookup : List (String × Symbol) → String → Option Symbol
  | [], _ => none
  | (nm, sym) :: rest, target => if nm = target then some sym else scopeLookup rest target

/-- Scope::Resolve (sema.h:98-109): current scope first, then the parents. -/
def resolveSym : List (List (String × Symbol)) → String → Option Symbol
  | [], _ => none
  | sc :: parents, target =>
      match scopeLookup sc target with
      | some sym => some sym
      | none => resolveSym parents target

/-- SymbolTable::Define (sema.h:172-174): insert into the current scope. -/
def defineSym (scs : List (List (String × Symbol))) (nm : String) (sym : Symbol) :
    List (List (String × Symbol)) :=
  match scs with
  | [] => []
  | sc :: parents => ((nm, sym) :: sc) :: parents

/-- The expression visitor of the semantic analyzer, a direct transcription of
VisitBinaryExpr, VisitUnaryExpr, VisitLiteralExpr, VisitVarExpr,
VisitAssignExpr, VisitSubscriptExpr and VisitCastExpr (sema.h:239-492).
Returns the type the visitor assigns to the node, or the thrown
SemanticError. -/
def analyzeExpr (scs : List (List (String × Symbol))) : SExpr → Except SemErr STy
  | .litInt _ _ _ => pure (.basic .INT)
  | .litChar _ _ => pure (.basic .CHAR)
  | .litStr _ _ _ => pure (.pointer (.basic .CHAR))
  | .litBool _ _ _ => pure (.basic .BOOL)
  | .litNull _ _ => pure (.pointer (.basic .VOID))
  | .varE nm line col =>
      match resolveSym scs nm with
      | none => throw ⟨"Undefined variable: " ++ nm, line, col⟩
      | some sym => pure sym.ty
  | .binary op l r line col => do
      let lt ← analyzeExpr scs l
      let rt ← analyzeExpr scs r
      if AreTypesCompatible lt rt then
        match op with
        | .ADD | .SUB | .MUL | .DIV | .MOD
        | .BIT_AND | .BIT_OR | .BIT_XOR | .SHIFT_LEFT | .SHIFT_RIGHT =>
            pure (GetCommonType lt rt)
        | .EQUAL | .NOT_EQUAL | .LESS | .GREATER | .LESS_EQUAL | .GREATER_EQUAL
        | .LOGICAL_AND | .LOGICAL_OR =>
            pure (.basic .BOOL)
      else throw ⟨"Incompatible types for binary operator", line, col⟩
  | .unary op e line col => do
      let ot ← analyzeExpr scs e
      match op with
      | .NEGATE =>
          if IsNumericType ot then pure ot
          else throw ⟨"Cannot negate non-numeric type", line, col⟩
      | .NOT => pure (.basic .BOOL)
      | .BIT_NOT =>
          if IsIntegerType ot then pure ot
          else throw ⟨"Bitwise not requires integer type", line, col⟩
      | .PRE_INC | .PRE_DEC | .POST_INC | .POST_DEC =>
          if IsNumericType ot then pure ot
          else throw ⟨"Increment/decrement requires numeric type", line, col⟩
      | .DEREF =>
          match ot with
          | .pointer p => pure p
          | _ => throw ⟨"Cannot dereference non-pointer type", line, col⟩
      | .ADDR_OF => pure (.pointer ot)
  | .assign target value line col => do
      let tt ← analyzeExpr scs target
      let vt ← analyzeExpr scs value
      if AreTypesCompatible tt vt then pure tt
      else throw ⟨"Incompatible types in assignment", line, col⟩
  | .subscript arr idx line col => do
      let arrT ← analyzeExpr scs arr
      let idxT ← analyzeExpr scs idx
      if IsIntegerType idxT then
        match arrT with
        | .array e _ => pure e
        | .pointer p => pure p
        | _ => throw ⟨"Subscript requires array or pointer type", line, col⟩
      else throw ⟨"Array index must be an integer", line, col⟩
  | .castE target e _ _ => do
      let _ ← analyzeExpr scs e
      pure target

mutual

/-- Statements of the analyzed universe. A declaration statement wraps the
variable declaration data the way the parser produces it. -/
inductive SStmt where
  | exprS (e : SExpr)
  | block (ss : SStmtList)
  | ifS (cond : SExpr) (thenB : SStmt) (line col : Nat)
  | ifElseS (cond : SExpr) (thenB elseB : SStmt) (line col : Nat)
  | declS (vname : String) (ty : STy) (ini : Option SExpr) (line col : Nat)

/-- A list of statements, mutually inductive with SStmt for the block body. -/
inductive SStmtList where
  | nil
  | cons (s : SStmt) (rest : SStmtList)

end

mutual

/-- The statement visitor: VisitExprStmt (sema.h:497-499), VisitBlockStmt
(sema.h:504-515, entering and exiting a scope around the body), VisitIfStmt
(sema.h:520-536, requiring a scalar condition), and VisitVarDecl
(sema.h:653-668) for a declaration statement. VisitVarDecl checks the
initializer against the declared type but defines no symbol: the code relies
on the first pass having collected the variable, and the first pass only
walks top-level declarations. -/
def analyzeStmt (scs : List (List (String × Symbol))) : SStmt → Except SemErr Unit
  | .exprS e => do
      let _ ← analyzeExpr scs e
      pure ()
  | .block ss => analyzeStmtList ([] :: scs) ss
  | .ifS cond thenB line col => do
      let ct ← analyzeExpr scs cond
      if IsScalarType ct then analyzeStmt scs thenB
      else throw ⟨"If condition must be a scalar type", line, col⟩
  | .ifElseS cond thenB elseB line col => do
      let ct ← analyzeExpr scs cond
      if IsScalarType ct then do
        analyzeStmt scs thenB
        analyzeStmt scs elseB
      else throw ⟨"If condition must be a scalar type", line, col⟩
  | .declS _ ty ini line col =>
      match ini with
      | none => pure ()
      | some e => do
          let it ← analyzeExpr scs e
          if AreTypesCompatible ty it then pure ()
          else throw ⟨"Incompatible initializer type", line, col⟩

/-- Sequential analysis of the statements of a block. -/
def analyzeStmtList (scs : List (List (String × Symbol))) : SStmtList → Except SemErr Unit
  | .nil => pure ()
  | .cons s rest => do
      analyzeStmt scs s
      analyzeStmtList scs rest

end

/-- Top-level declarations of the analyzed universe. -/
inductive SDecl where
  | varD (vname : String) (ty : STy) (ini : Option SExpr) (line col : Nat)
  | funcD (fname : String) (retTy : STy) (params : List (String × STy))
      (body : Option SStmt) (line col : Nat)

/-- SemanticAnalyzer::CollectDeclaration (sema.h:757-793), first pass: a
variable declaration defines a VARIABLE symbol, a function declaration defines
a FUNCTION symbol carrying the return type. Only top-level declarations are
collected. -/
def collectDecl (scs : List (List (String × Symbol))) : SDecl → List (List (String × Symbol))
  | .varD nm ty _ _ _ => defineSym scs nm ⟨.VARIABLE, ty⟩
  | .funcD nm retTy _ _ _ _ => defineSym scs nm ⟨.FUNCTION, retTy⟩

/-- Second pass over one declaration: VisitVarDecl (sema.h:653-668) checks the
initializer; VisitFuncDecl (sema.h:673-701) enters a scope, defines the
parameters as PARAMETER symbols, and visits the body. -/
def analyzeDecl (scs : List (List (String × Symbol))) : SDecl → Except SemErr Unit
  | .varD _ ty ini line col =>
      match ini with
      | none => pure ()
      | some e => do
          let it ← analyzeExpr scs e
          if AreTypesCompatible ty it then pure ()
          else throw ⟨"Incompatible initializer type", line, col⟩
  | .funcD _ _ params body _ _ =>
      let scs1 := params.foldl (fun s p => defineSym s p.1 ⟨.PARAMETER, p.2⟩) ([] :: scs)
      match body with
      | none => pure ()
      | some b => analyzeStmt scs1 b

/-- SemanticAnalyzer::Analyze (sema.h:224-234): first pass collects all
top-level declarations into the global scope, second pass analyzes each
declaration; the first thrown error aborts the run. -/
def semAnalyze (decls : List SDecl) : Except SemErr Unit :=
  let g := decls.foldl collectDecl [[]]
  decls.foldlM (fun _ d => analyzeDecl g d) ()

/-- The program of claim C2, as parsed:
void f() with body int x = 5; if (x > 3) with then-block x = x + 1;.
Columns: the declaration of x at column 12 with literal at 20, the reference
to x in the condition at column 27, the comparison at 29, the assignment
inside the then-block at 38. -/
def unitC2 : List SDecl :=
  [ .funcD "f" (.basic .VOID) []
      (some (.block
        (.cons (.declS "x" (.basic .INT) (some (.litInt 5 1 20)) 1 12)
          (.cons
            (.ifS (.binary .GREATER (.varE "x" 1 27) (.litInt 3 1 31) 1 29)
              (.block
                (.cons
                  (.exprS (.assign (.varE "x" 1 36)
                    (.binary .ADD (.varE "x" 1 40) (.litInt 1 1 44) 1 42) 1 38))
                  .nil)) 1 23)
            .nil)))) 1 1 ]

/-- Claim C2, evaluated on its stated input: semantic analysis of
void f() with body int x = 5; if (x > 3) then x = x + 1; does NOT complete
with zero errors. The local declaration of x is visited by VisitVarDecl, which
never defines a symbol (it relies on the collection pass, and that pass only
walks top-level declarations, sema.h:224-234, 653-668, 757-793), so the
reference to x in the condition fails to resolve and the analyzer throws
Undefined variable x at the position of that reference. The claim is
therefore false on the code: the analysis never reaches the point of giving
the condition the type bool. -/
theorem C2_local_variable_unresolved :
    semAnalyze unitC2 = Except.error ⟨"Undefined variable: x", 1, 27⟩ := rfl

/-- Claim C6, evaluated on a failing input: unary negation of a FLOAT operand
(and of a DOUBLE operand) is rejected by the analyzer with the error
Cannot negate non-numeric type, because IsNumericType is IsIntegerType
(sema.h:815-817) and does not include the floating-point kinds. Negation of
integer operands succeeds and preserves the operand type, as the last two
conjuncts show, so the failure is specific to float and double. -/
theorem C6_negate_float_rejected :
    analyzeExpr [[]] (.unary .NEGATE (.castE (.basic .FLOAT) (.litInt 0 1 9) 1 8) 1 7)
      = Except.error ⟨"Cannot negate non-numeric type", 1, 7⟩ ∧
    analyzeExpr [[]] (.unary .NEGATE (.castE (.basic .DOUBLE) (.litInt 0 1 9) 1 8) 1 7)
      = Except.error ⟨"Cannot negate non-numeric type", 1, 7⟩ ∧
    analyzeExpr [[]] (.unary .NEGATE (.litInt 5 1 2) 1 1)
      = Except.ok (.basic .INT) ∧
    analyzeExpr [[]] (.unary .NEGATE (.castE (.basic .LONG) (.litInt 0 1 9) 1 8) 1 7)
      = Except.ok (.basic .LONG) :=
  ⟨rfl, rfl, rfl, rfl⟩

/-- The two-declaration unit of claim C7: a global int x[5] and a function g
whose body assigns through x at the given index expression. The subscript
node sits at line 2 column 13. -/
def c7Unit (idx : SExpr) : List SDecl :=
  [ .varD "x" (.array (.basic .INT) 5) none 1 1,
    .funcD "g" (.basic .VOID) []
      (some (.block
        (.cons
          (.exprS (.assign (.subscript (.varE "x" 2 12) idx 2 13)
            (.litInt 1 2 20) 2 18))
          .nil))) 2 1 ]

/-- Claim C7: for the globals int x[5] with an assignment through x, semantic
analysis accepts every integer-literal index, including the out-of-bounds 10,
because VisitSubscriptExpr (sema.h:462-482) checks only that the index type is
an integer and never inspects the value; a string index, whose type is pointer
to char, is rejected with Array index must be an integer carrying the line and
column of the subscript expression. -/
theorem C7_subscript_no_bounds_check :
    (∀ v : Int, semAnalyze (c7Unit (.litInt v 2 14)) = Except.ok ()) ∧
    semAnalyze (c7Unit (.litStr "a" 2 14))
      = Except.error ⟨"Array index must be an integer", 2, 13⟩ :=
  ⟨fun _ => rfl, rfl⟩

/-! ## Code generator (src/compiler/codegen.cpp)

The generator is a tree-walking visitor that threads intermediate results
through a single value stack and appends instructions to a current basic
block (builder insert point). Values are modelled as numbered SSA results
carrying their LLVM type; basic blocks are numbered lists of instructions;
the function entry block is block 0. The embedding transcribes the visitor
cases the claims exercise; the eagerly lowered arithmetic, bitwise and
comparison binary operators all share one shape (visit both operands, pop
both, emit one instruction, push) and are represented by one operator. -/

/-- LLVM value types as far as the generator distinguishes them in
ConvertToBoolean (codegen.cpp:335-365): the 1-bit boolean, wider integers,
floats, and pointers. -/
inductive VTy where
  | i1 | i8 | i16 | i32 | i64 | f32 | f64 | ptrT
  deriving DecidableEq, Repr

/-- A generated value: SSA number and type. -/
structure Val where
  vid : Nat
  vty : VTy
  deriving DecidableEq, Repr

/-- An address, as GetLValue produces it: either a named alloca or a computed
pointer value. -/
inductive Addr where
  | byName (s : String)
  | byVal (v : Nat)
  deriving DecidableEq, Repr

/-- An incoming phi edge: the short-circuit constant or a value, each tagged
with its predecessor block. -/
inductive PhiIn where
  | constFalse (blk : Nat)
  | constTrue (blk : Nat)
  | fromVal (v : Nat) (blk : Nat)
  deriving DecidableEq, Repr

/-- Emitted instructions, reduced to what the claims observe: calls, the
compare-against-zero of boolean conversion, loads and stores, address
arithmetic, one-result arithmetic, branches and phi nodes. -/
inductive Instr where
  | call (fn : String) (res : Nat)
  | icmpNe (arg res : Nat)
  | fcmpNe (arg res : Nat)
  | load (src : Addr) (res : Nat)
  | store (v : Nat) (dst : Addr)
  | gep (base idx res : Nat)
  | arith (l r res : Nat)
  | unop (arg res : Nat)
  | condbr (cond tBlk fBlk : Nat)
  | br (blk : Nat)
  | phi (ins : List PhiIn) (res : Nat)
  deriving DecidableEq, Repr

/-- Generator state: the blocks of the current function (block 0 is the entry
block), the current insert block, the value stack (head is the top), and the
next SSA number. -/
structure CGState where
  blocks : List (List Instr)
  cur : Nat
  stack : List Val
  fresh : Nat
  deriving DecidableEq, Repr

/-- Read-only lookup context: named_values_ mapped to the type a load of each
variable produces, and the module function table mapped to return types. -/
structure CGEnv where
  vars : List (String × VTy)
  funcs : List (String × VTy)

/-- Association lookup used for both tables. -/
def lookupVTy : List (String × VTy) → String → Option VTy
  | [], _ => none
  | (nm, t) :: rest, target => if nm = target then some t else lookupVTy rest target

/-- Append an instruction to the current insert block. -/
def CGState.emit (s : CGState) (i : Instr) : CGState :=
  { s with blocks := s.blocks.set s.cur (s.blocks.getD s.cur [] ++ [i]) }

/-- Create a new basic block (BasicBlock::Create) and return its number. -/
def CGState.newBlock (s : CGState) : Nat × CGState :=
  (s.blocks.length, { s with blocks := s.blocks ++ [[]] })

/-- Allocate a fresh SSA value of the given type without emitting anything
(used for constants, which LLVM does not materialize as instructions). -/
def CGState.freshVal (s : CGState) (t : VTy) : Val × CGState :=
  (⟨s.fresh, t⟩, { s with fresh := s.fresh + 1 })

/-- Emit one instruction whose result is a fresh value of the given type. -/
def CGState.emitVal (s : CGState) (mk : Nat → Instr) (t : VTy) : Val × CGState :=
  let v : Val := ⟨s.fresh, t⟩
  (v, CGState.emit { s with fresh := s.fresh + 1 } (mk v.vid))

/-- Push a value (value_stack_.push). -/
def CGState.pushV (s : CGState) (v : Val) : CGState :=
  { s with stack := v :: s.stack }

/-- value_stack_.top() followed by pop(). Popping an empty stack is undefined
behaviour in the C++; the dummy result here is never reached in the runs the
theorems evaluate. -/
def CGState.popTop (s : CGState) : Val × CGState :=
  match s.stack with
  | [] => (⟨0, .i1⟩, s)
  | v :: rest => (v, { s with stack := rest })

/-- CodeGenerator::ConvertToBoolean (codegen.cpp:335-365): an i1 passes
through unchanged, integers and pointers compare against zero or null with
icmp, floats with fcmp; each comparison is an emitted instruction producing a
fresh i1. -/
def convertToBoolean (s : CGState) (v : Val) : Val × CGState :=
  match v.vty with
  | .i1 => (v, s)
  | .i8 | .i16 | .i32 | .i64 => s.emitVal (fun r => .icmpNe v.vid r) .i1
  | .f32 | .f64 => s.emitVal (fun r => .fcmpNe v.vid r) .i1
  | .ptrT => s.emitVal (fun r => .icmpNe v.vid r) .i1

/-- CodeGenerator::EmitLogicalAnd (codegen.cpp:419-452). Both operand values
already exist when this runs (VisitBinaryExpr evaluated them, codegen.cpp:
640-648). The emitted shape: convert lhs to boolean, create the rhs and end
blocks, conditionally branch on the lhs boolean, convert rhs to boolean
inside the rhs block, fall through to the end block, and build a phi whose
false edge is attributed to the function entry block (block 0, the block
getFirstNonPHI of getEntryBlock belongs to, codegen.cpp:445-447). -/
def emitLogicalAnd (s : CGState) (lhs rhs : Val) : Val × CGState :=
  let (lb, s1) := convertToBoolean s lhs
  let (rhsBlk, s2) := s1.newBlock
  let (endBlk, s3) := s2.newBlock
  let s4 := s3.emit (.condbr lb.vid rhsBlk endBlk)
  let s5 := { s4 with cur := rhsBlk }
  let (rb, s6) := convertToBoolean s5 rhs
  let s7 := s6.emit (.br endBlk)
  let s8 := { s7 with cur := endBlk }
  s8.emitVal (fun r => .phi [.constFalse 0, .fromVal rb.vid rhsBlk] r) .i1

/-- CodeGenerator::EmitLogicalOr (codegen.cpp:457-490), symmetric to the
logical and with the branch targets swapped and a true constant on the
short-circuit edge. -/
def emitLogicalOr (s : CGState) (lhs rhs : Val) : Val × CGState :=
  let (lb, s1) := convertToBoolean s lhs
  let (rhsBlk, s2) := s1.newBlock
  let (endBlk, s3) := s2.newBlock
  let s4 := s3.emit (.condbr lb.vid endBlk rhsBlk)
  let s5 := { s4 with cur := rhsBlk }
  let (rb, s6) := convertToBoolean s5 rhs
  let s7 := s6.emit (.br endBlk)
  let s8 := { s7 with cur := endBlk }
  s8.emitVal (fun r => .phi [.constTrue 0, .fromVal rb.vid rhsBlk] r) .i1

/-- Unary operators as dispatched by CodeGenerator::VisitUnaryExpr. -/
inductive CUnOp where
  | NEGATE | NOT | LOGICAL_NOT | PRE_INC | PRE_DEC | POST_INC | POST_DEC
  | ADDR | DEREF
  deriving DecidableEq, Repr

/-- Binary operators: the eagerly lowered arithmetic, bitwise and comparison
group shares one shape; the two logical operators dispatch to the emit
helpers. -/
inductive CBinOp where
  | arithOp
  | logicalAnd
  | logicalOr
  deriving DecidableEq, Repr

/-- Expressions of the generated universe. A node carries a type annotation
exactly where the C++ visitor reads ConvertType of the node type: the unary
node for the dereference load, the subscript node for its gep and load. -/
inductive CExpr where
  | litBool (b : Bool)
  | litInt (v : Int)
  | varE (vname : String)
  | assign (target value : CExpr)
  | unary (op : CUnOp) (t : VTy) (e : CExpr)
  | binary (op : CBinOp) (l r : CExpr)
  | subscriptE (t : VTy) (arr idx : CExpr)
  | call0 (fn : String)
  deriving DecidableEq, Repr

mutual

/-- CodeGenerator::GetLValue (codegen.cpp:370-414). A variable resolves to its
named alloca with no stack traffic; a subscript visits base and index, pops
both, and computes a gep; a dereference unary expression visits its operand
and returns value_stack_.top() WITHOUT popping it (codegen.cpp:404-410);
every other shape prints an error and yields a null address. -/
def getLValue (env : CGEnv) (s : CGState) : CExpr → Option Addr × CGState
  | .varE nm =>
      match lookupVTy env.vars nm with
      | none => (none, s)
      | some _ => (some (.byName nm), s)
  | .subscriptE _ a i =>
      let s1 := visitExpr env s a
      let (av, s2) := s1.popTop
      let s3 := visitExpr env s2 i
      let (iv, s4) := s3.popTop
      let (g, s5) := s4.emitVal (fun r => .gep av.vid iv.vid r) .ptrT
      (some (.byVal g.vid), s5)
  | .unary op _ e =>
      match op with
      | .DEREF =>
          let s1 := visitExpr env s e
          match s1.stack with
          | [] => (none, s1)
          | v :: _ => (some (.byVal v.vid), s1)
      | _ => (none, s)
  | _ => (none, s)

/-- The expression visitor of the code generator: VisitLiteralExpr
(codegen.cpp:866-937), VisitVarExpr (942-962, returning without pushing when
the variable is unknown), VisitAssignExpr (967-981), VisitUnaryExpr
(793-861 together with the Emit helpers 495-568), VisitBinaryExpr (640-788,
which evaluates BOTH operands before dispatching on the operator),
VisitSubscriptExpr (1060-1088) and VisitCallExpr for a nullary call
(986-1013, returning without pushing when the callee is unknown). -/
def visitExpr (env : CGEnv) (s : CGState) : CExpr → CGState
  | .litBool _ =>
      let (v, s1) := s.freshVal .i1
      s1.pushV v
  | .litInt _ =>
      let (v, s1) := s.freshVal .i32
      s1.pushV v
  | .varE nm =>
      match lookupVTy env.vars nm with
      | none => s
      | some t =>
          let (v, s1) := s.emitVal (fun r => .load (.byName nm) r) t
          s1.pushV v
  | .assign target value =>
      let (addr, s1) := getLValue env s target
      let s2 := visitExpr env s1 value
      let (rv, s3) := s2.popTop
      let s4 := s3.emit (.store rv.vid (addr.getD (.byName "<null>")))
      s4.pushV rv
  | .unary op t e =>
      let s1 := visitExpr env s e
      let (ov, s2) := s1.popTop
      match op with
      | .NEGATE =>
          let (v, s3) := s2.emitVal (fun r => .unop ov.vid r) ov.vty
          s3.pushV v
      | .NOT =>
          let (v, s3) := s2.emitVal (fun r => .unop ov.vid r) ov.vty
          s3.pushV v
      | .LOGICAL_NOT =>
          let (b, s3) := convertToBoolean s2 ov
          let (v, s4) := s3.emitVal (fun r => .unop b.vid r) .i1
          s4.pushV v
      | .PRE_INC | .PRE_DEC =>
          let (addr, s3) := getLValue env s2 e
          let (nv, s4) := s3.emitVal (fun r => .unop ov.vid r) ov.vty
          let s5 := s4.emit (.store nv.vid (addr.getD (.byName "<null>")))
          s5.pushV nv
      | .POST_INC | .POST_DEC =>
          let (addr, s3) := getLValue env s2 e
          let (nv, s4) := s3.emitVal (fun r => .unop ov.vid r) ov.vty
          let s5 := s4.emit (.store nv.vid (addr.getD (.byName "<null>")))
          s5.pushV ov
      | .ADDR =>
          let (addr, s3) := getLValue env s2 e
          match addr with
          | some (.byVal v) => s3.pushV ⟨v, .ptrT⟩
          | some (.byName _) =>
              let (v, s4) := s3.freshVal .ptrT
              s4.pushV v
          | none => s3.pushV ⟨0, .ptrT⟩
      | .DEREF =>
          let (v, s3) := s2.emitVal (fun r => .load (.byVal ov.vid) r) t
          s3.pushV v
  | .binary op l r =>
      let s1 := visitExpr env s l
      let (lv, s2) := s1.popTop
      let s3 := visitExpr env s2 r
      let (rv, s4) := s3.popTop
      match op with
      | .arithOp =>
          let (v, s5) := s4.emitVal (fun r0 => .arith lv.vid rv.vid r0) lv.vty
          s5.pushV v
      | .logicalAnd =>
          let (v, s5) := emitLogicalAnd s4 lv rv
          s5.pushV v
      | .logicalOr =>
          let (v, s5) := emitLogicalOr s4 lv rv
          s5.pushV v
  | .subscriptE t a i =>
      let s1 := visitExpr env s a
      let (av, s2) := s1.popTop
      let s3 := visitExpr env s2 i
      let (iv, s4) := s3.popTop
      let (g, s5) := s4.emitVal (fun r => .gep av.vid iv.vid r) .ptrT
      let (v, s6) := s5.emitVal (fun r => .load (.byVal g.vid) r) t
      s6.pushV v
  | .call0 fn =>
      match lookupVTy env.funcs fn with
      | none => s
      | some rty =>
          let (v, s1) := s.emitVal (fun r => .call fn r) rty
          s1.pushV v

end

/-! ### A small executor for the emitted control flow

Runs the emitted blocks with an oracle giving the boolean result of every
call, recording the order of executed calls. Instructions that do not affect
control flow or the call trace are skipped. -/

/-- Value environment of the executor: SSA number to boolean content. -/
def lookupVal : List (Nat × Bool) → Nat → Bool
  | [], _ => false
  | (i, b) :: rest, j => if i = j then b else lookupVal rest j

/-- Execute one block body: returns the updated values, the call trace, and
the jump target when a terminator was reached. -/
def execInstrs (oracle : String → Bool) :
    List Instr → List (Nat × Bool) → List String →
      List (Nat × Bool) × List String × Option Nat
  | [], vals, trace => (vals, trace, none)
  | i :: rest, vals, trace =>
      match i with
      | .call fn r => execInstrs oracle rest ((r, oracle fn) :: vals) (trace ++ [fn])
      | .icmpNe a r => execInstrs oracle rest ((r, lookupVal vals a) :: vals) trace
      | .fcmpNe a r => execInstrs oracle rest ((r, lookupVal vals a) :: vals) trace
      | .condbr c tBlk fBlk =>
          (vals, trace, some (if lookupVal vals c then tBlk else fBlk))
      | .br b => (vals, trace, some b)
      | _ => execInstrs oracle rest vals trace

/-- Execute the control-flow graph from a block, with fuel, collecting the
call trace; execution stops when a block ends without a terminator. -/
def execBlocks (oracle : String → Bool) (blocks : List (List Instr)) :
    Nat → Nat → List (Nat × Bool) → List String → List String
  | 0, _, _, trace => trace
  | fuel + 1, blk, vals, trace =>
      match execInstrs oracle (blocks.getD blk []) vals trace with
      | (_, trace1, none) => trace1
      | (vals1, trace1, some nxt) => execBlocks oracle blocks fuel nxt vals1 trace1

/-- The context of the short-circuit claim: two nullary bool functions f and
g known to the module, no variables, emission starting in the function entry
block. -/
def c1Env : CGEnv := ⟨[], [("f", .i1), ("g", .i1)]⟩

/-- Initial emission state: one empty entry block, empty stack. -/
def cgStart : CGState := ⟨[[]], 0, [], 0⟩

/-- The lowering of f() && g(). -/
def c1Out : CGState :=
  visitExpr c1Env cgStart (.binary .logicalAnd (.call0 "f") (.call0 "g"))

/-- Claim C1, evaluated at the failing input f() && g(): VisitBinaryExpr
visits both operands before dispatching on the operator (codegen.cpp:
640-648), so the call to g is emitted into the entry block BEFORE the
conditional branch; the conditionally executed right-hand block contains only
the fall-through branch, and only the boolean conversion of the right value
would sit there. Executing the emitted graph with f() evaluating to false
still calls g: the call trace is f followed by g. The phi merge point exists
and carries the false constant on the skipped edge, but the claim that the
right operand code including its calls is not executed when the left value
is false is false on the code. -/
theorem C1_logical_and_rhs_eager :
    c1Out.blocks =
      [[.call "f" 0, .call "g" 1, .condbr 0 1 2],
        [.br 2],
        [.phi [.constFalse 0, .fromVal 1 1] 2]] ∧
    execBlocks (fun _ => false) c1Out.blocks 10 0 [] [] = ["f", "g"] := by
  refine ⟨rfl, rfl⟩

/-- The context of the stack-discipline claim: a pointer variable p and an
int variable v, both known to the generator. -/
def c9Env : CGEnv := ⟨[("p", .ptrT), ("v", .i32)], []⟩

/-- Claim C9, evaluated at the failing input, the assignment through a
pointer dereference star-p = v: the GetLValue branch for a dereference target
returns value_stack_.top() without popping (codegen.cpp:404-410), so one
visit of this assignment expression leaves TWO values on the value stack,
not one; an ordinary variable expression pushes exactly one, and the unknown
variable and unknown callee error paths push none at all (codegen.cpp:
947-951, 990-999). The claimed push-exactly-one discipline fails on the
code. -/
theorem C9_value_stack_discipline_broken :
    (visitExpr c9Env cgStart (.assign (.unary .DEREF .i32 (.varE "p")) (.varE "v"))).stack.length
        = 2 ∧
    (visitExpr c9Env cgStart (.varE "v")).stack.length = 1 ∧
    (visitExpr c9Env cgStart (.varE "unknown")).stack.length = 0 ∧
    (visitExpr c9Env cgStart (.call0 "unknown")).stack.length = 0 := by
  refine ⟨rfl, rfl, rfl, rfl⟩

end DsLang
